import Mathlib

/-!
Shallow embedding of the foodgram backend core: the relational state
(recipes, ingredients, recipe-ingredient rows, favorite and shopping-cart
membership rows, follows), the membership toggle actions, recipe
creation/update with validation, the short-code allocator, and the
shopping-list aggregation and text export.  Each definition mirrors the
corresponding Python code in backend/recipes/models.py, backend/api/views.py
and backend/api/serializers.py.
-/

/-- Row of the Ingredient table (recipes/models.py, class Ingredient). -/
structure Ingredient where
  id : Nat
  name : String
  measurement_unit : String
deriving DecidableEq, Repr

/-- Row of the Recipe table; only the fields the verified claims touch.
`short_url` is the nullable 6-character short code column. -/
structure Recipe where
  id : Nat
  author : Nat
  name : String
  cooking_time : Nat
  short_url : Option String
deriving DecidableEq, Repr

/-- Row of the IngredientInRecipe join table (recipe id, ingredient id, amount). -/
structure IngredientInRecipe where
  recipe : Nat
  ingredient : Nat
  amount : Nat
deriving DecidableEq, Repr

/-- A (user, recipe) membership row, the shape of both Favorite and ShoppingCart. -/
structure MemberRow where
  user : Nat
  recipe : Nat
deriving DecidableEq, Repr

/-- Row of the Follow table: `user` follows `author`. -/
structure Follow where
  user : Nat
  author : Nat
deriving DecidableEq, Repr

/-- The relational store: one list of rows per table, in insertion order. -/
structure Store where
  users : List Nat
  tags : List Nat
  ingredients : List Ingredient
  recipes : List Recipe
  ingredientInRecipe : List IngredientInRecipe
  favorites : List MemberRow
  shoppingCart : List MemberRow
  follows : List Follow
deriving DecidableEq, Repr

/-- Join from an ingredient id to its (name, measurement_unit) pair, as the
ORM join `ingredient__name` / `ingredient__measurement_unit` performs. -/
def ingredientKey (ings : List Ingredient) (iid : Nat) : Option (String × String) :=
  (ings.find? (fun i => i.id == iid)).map (fun i => (i.name, i.measurement_unit))

/-- Membership test of the ORM filter recipe__shopping_recipe__user: is
recipe `rid` in the shopping cart of user `u`. -/
def inCartOf (db : Store) (u : Nat) (rid : Nat) : Bool :=
  db.shoppingCart.any (fun c => c.user == u && c.recipe == rid)

/-- The filtered queryset of download_shopping_cart: all IngredientInRecipe
rows whose recipe is in the shopping cart of `u`. -/
def cartRows (db : Store) (u : Nat) : List IngredientInRecipe :=
  db.ingredientInRecipe.filter (fun row => inCartOf db u row.recipe)

/-- Rows of the joined values queryset — the ingredient name and measurement
unit of each cart row — paired with their amounts (rows whose ingredient is
missing drop out of the inner join). -/
def cartEntries (db : Store) (u : Nat) : List ((String × String) × Nat) :=
  (cartRows db u).filterMap
    (fun row => (ingredientKey db.ingredients row.ingredient).map (fun k => (k, row.amount)))

/-- Group keys in first-occurrence order, as SQL GROUP BY without ORDER BY is
realised over the stored row sequence. -/
def dedupFirst : List (String × String) → List (String × String)
  | [] => []
  | k :: ks => k :: (dedupFirst ks).filter (fun j => decide (j ≠ k))

/-- Sum of the amount column for one group key. -/
def totalFor (l : List ((String × String) × Nat)) (k : String × String) : Nat :=
  ((l.filter (fun e => decide (e.1 = k))).map (fun e => e.2)).sum

/-- The annotated queryset of download_shopping_cart: one
(name, measurement_unit, total) triple per distinct ingredient identity of the
cart rows, keys in first-occurrence order. -/
def shoppingIngredients (db : Store) (u : Nat) : List (String × String × Nat) :=
  (dedupFirst ((cartEntries db u).map (fun e => e.1))).map
    (fun k => (k.1, k.2, totalFor (cartEntries db u) k))

/-- RecipeViewSet.ingredients_to_txt: concatenates one formatted line per
aggregated triple. -/
def ingredients_to_txt (ingredients : List (String × String × Nat)) : String :=
  ingredients.foldl
    (fun acc e => acc ++ (e.1 ++ "  - " ++ toString e.2.2 ++ "(" ++ e.2.1 ++ ")" ++ "\n"))
    ""

/-- RecipeViewSet.download_shopping_cart: the text body of the response. -/
def download_shopping_cart (db : Store) (u : Nat) : String :=
  ingredients_to_txt (shoppingIngredients db u)

/-- Example store of the specification: user 1 has recipes A (id 1) and
B (id 2) in the cart; A holds (flour, 200 g), B holds (flour, 300 g) and
(sugar, 50 g). -/
def exampleDb : Store where
  users := [1]
  tags := [1]
  ingredients := [⟨10, "flour", "g"⟩, ⟨11, "sugar", "g"⟩]
  recipes := [⟨1, 1, "A", 5, some "aaaaaa"⟩, ⟨2, 1, "B", 7, some "bbbbbb"⟩]
  ingredientInRecipe := [⟨1, 10, 200⟩, ⟨2, 10, 300⟩, ⟨2, 11, 50⟩]
  favorites := []
  shoppingCart := [⟨1, 1⟩, ⟨1, 2⟩]
  follows := []

/-- Outcome of a view action, abstracting the HTTP status it maps to:
`created` is 201 with the recipe payload, `noContent` is 204, `badRequest`
is 400 (the conflict / not-a-member / validation errors), `notFound` is the
404 of get_object_or_404. -/
inductive ActionResult where
  | created (rid : Nat)
  | noContent
  | badRequest
  | notFound
deriving DecidableEq, Repr

/-- Existence test on the Recipe table, the guard behind get_object_or_404. -/
def recipeExists (db : Store) (rid : Nat) : Bool :=
  db.recipes.any (fun r => r.id == rid)

/-- Existence test for the (user, recipe) pair on a membership table. -/
def memberExists (rows : List MemberRow) (u rid : Nat) : Bool :=
  rows.any (fun m => m.user == u && m.recipe == rid)

/-- RecipeViewSet.favorite, POST branch: 404 if the recipe is missing, 400 if
the membership already exists, else create the row and answer 201. -/
def favoritePost (db : Store) (u rid : Nat) : ActionResult × Store :=
  if recipeExists db rid then
    if memberExists db.favorites u rid then (.badRequest, db)
    else (.created rid, { db with favorites := db.favorites ++ [⟨u, rid⟩] })
  else (.notFound, db)

/-- RecipeViewSet.favorite, DELETE branch: 404 if the recipe is missing,
delete the matching rows and answer 204 when present, else 400. -/
def favoriteDelete (db : Store) (u rid : Nat) : ActionResult × Store :=
  if recipeExists db rid then
    if memberExists db.favorites u rid then
      (.noContent,
        { db with favorites :=
            db.favorites.filter (fun m => !(m.user == u && m.recipe == rid)) })
    else (.badRequest, db)
  else (.notFound, db)

/-- RecipeViewSet.shopping_cart, POST branch (same structure as favorite). -/
def shoppingCartPost (db : Store) (u rid : Nat) : ActionResult × Store :=
  if recipeExists db rid then
    if memberExists db.shoppingCart u rid then (.badRequest, db)
    else (.created rid, { db with shoppingCart := db.shoppingCart ++ [⟨u, rid⟩] })
  else (.notFound, db)

/-- RecipeViewSet.shopping_cart, DELETE branch. -/
def shoppingCartDelete (db : Store) (u rid : Nat) : ActionResult × Store :=
  if recipeExists db rid then
    if memberExists db.shoppingCart u rid then
      (.noContent,
        { db with shoppingCart :=
            db.shoppingCart.filter (fun m => !(m.user == u && m.recipe == rid)) })
    else (.badRequest, db)
  else (.notFound, db)

/-- One entry of the ingredients list of the creation payload. -/
structure IngredientAmount where
  id : Nat
  amount : Nat
deriving DecidableEq, Repr

/-- The structured payload of a recipe create / update request. -/
structure RecipePayload where
  name : String
  text : String
  cooking_time : Nat
  ingredients : List IngredientAmount
  tags : List Nat
deriving DecidableEq, Repr

/-- Existence test on the Ingredient table by primary key. -/
def ingredientExists (db : Store) (iid : Nat) : Bool :=
  db.ingredients.any (fun i => i.id == iid)

/-- Existence test on the Tag table by primary key (PrimaryKeyRelatedField). -/
def tagExists (db : Store) (t : Nat) : Bool :=
  db.tags.any (fun x => x == t)

/-- Duplicate-id test of CreateRecipeSerializer.validate: the ingredient list
is longer than the set of its ids. -/
def hasDuplicateIngredientIds (l : List IngredientAmount) : Bool :=
  decide (l.length ≠ (l.map (fun i => i.id)).dedup.length)

/-- Duplicate-tag test of CreateRecipeSerializer.validate: the tag list is
longer than the set of its elements. -/
def hasDuplicateTags (l : List Nat) : Bool :=
  decide (l.length ≠ l.dedup.length)

/-- A fresh primary key for a new recipe row. -/
def freshRecipeId (db : Store) : Nat :=
  (db.recipes.map (fun r => r.id)).foldr max 0 + 1

/-- Recipe.generate_short_url: the while-loop drawing candidates from the
random source until one is unused; `stream` is the (finite prefix of the)
sequence of get_random_string(6) draws, and `none` means the modelled draws
were exhausted without finding a fresh code. -/
def generate_short_url (existing : List String) (stream : List String) : Option String :=
  stream.find? (fun s => !(existing.contains s))

/-- Python truthiness of the nullable `short_url` field: None and the empty
string are falsy. -/
def shortUrlFalsy : Option String → Bool
  | none => true
  | some s => s.isEmpty

/-- The short codes currently present in the store. -/
def shortCodes (db : Store) : List String :=
  db.recipes.filterMap (fun r => r.short_url)

/-- Recipe.save restricted to its short-code effect: assign a freshly
generated code when the field is falsy, keep the recipe unchanged otherwise. -/
def recipeSaveCode (existing : List String) (stream : List String) (r : Recipe) :
    Option Recipe :=
  if shortUrlFalsy r.short_url then
    (generate_short_url existing stream).map (fun c => { r with short_url := some c })
  else some r

/-- RecipeViewSet.create followed by CreateRecipeSerializer validation and
CreateRecipeSerializer.create, sequenced exactly as the code runs them: the
pre-checks of the view, the field validators of the serializer, its
validate hook, then Recipe.objects.create (which assigns the short code via
save), create_ingredients (re-checking existence before bulk_create), and
create_tags.  Returns the error message (if any) and the resulting store. -/
def recipeCreate (db : Store) (stream : List String) (u : Nat) (p : RecipePayload) :
    Option String × Store :=
  if p.ingredients.isEmpty then (some "ingredients list empty", db)
  else if p.ingredients.any (fun i => !(ingredientExists db i.id)) then
    (some "ingredient does not exist", db)
  else if p.tags.isEmpty then (some "tags list empty", db)
  else if p.ingredients.any (fun i => i.amount < 1) then (some "amount below minimum", db)
  else if p.tags.any (fun t => !(tagExists db t)) then (some "tag does not exist", db)
  else if p.cooking_time < 1 then (some "cooking time below minimum", db)
  else if hasDuplicateIngredientIds p.ingredients then (some "duplicate ingredients", db)
  else if hasDuplicateTags p.tags then (some "duplicate tags", db)
  else
    let rid := freshRecipeId db
    match generate_short_url (shortCodes db) stream with
    | none => (some "short code draws exhausted", db)
    | some code =>
      let db1 :=
        { db with recipes :=
            db.recipes ++ [⟨rid, u, p.name, p.cooking_time, some code⟩] }
      if p.ingredients.any (fun i => !(ingredientExists db1 i.id)) then
        (some "ingredient does not exist", db1)
      else
        (none,
          { db1 with ingredientInRecipe :=
              db1.ingredientInRecipe ++
                p.ingredients.map (fun i => ⟨rid, i.id, i.amount⟩) })

/-- RecipeViewSet.partial_update followed by CreateRecipeSerializer.update:
the same pre-checks and validation as creation, then deletion of every
IngredientInRecipe row of the instance, re-creation from the payload, and the
field update of the recipe row itself. -/
def recipeUpdate (db : Store) (rid : Nat) (p : RecipePayload) :
    Option String × Store :=
  if p.ingredients.isEmpty then (some "ingredients list empty", db)
  else if p.ingredients.any (fun i => !(ingredientExists db i.id)) then
    (some "ingredient does not exist", db)
  else if p.tags.isEmpty then (some "tags list empty", db)
  else if p.ingredients.any (fun i => i.amount < 1) then (some "amount below minimum", db)
  else if p.tags.any (fun t => !(tagExists db t)) then (some "tag does not exist", db)
  else if p.cooking_time < 1 then (some "cooking time below minimum", db)
  else if hasDuplicateIngredientIds p.ingredients then (some "duplicate ingredients", db)
  else if hasDuplicateTags p.tags then (some "duplicate tags", db)
  else
    let db1 :=
      { db with ingredientInRecipe :=
          db.ingredientInRecipe.filter (fun row => !(row.recipe == rid)) }
    if p.ingredients.any (fun i => !(ingredientExists db1 i.id)) then
      (some "ingredient does not exist", db1)
    else
      (none,
        { db1 with
            ingredientInRecipe :=
              db1.ingredientInRecipe ++
                p.ingredients.map (fun i => ⟨rid, i.id, i.amount⟩),
            recipes :=
              db1.recipes.map (fun r =>
                if r.id == rid then
                  { r with name := p.name, cooking_time := p.cooking_time }
                else r) })

/-- RecipeSerializer.get_is_favorited: `none` is an anonymous requester (or a
missing request in the context). -/
def get_is_favorited (db : Store) (requester : Option Nat) (rid : Nat) : Bool :=
  match requester with
  | none => false
  | some u => db.favorites.any (fun m => m.user == u && m.recipe == rid)

/-- RecipeSerializer.get_is_in_shopping_cart. -/
def get_is_in_shopping_cart (db : Store) (requester : Option Nat) (rid : Nat) : Bool :=
  match requester with
  | none => false
  | some u => db.shoppingCart.any (fun m => m.user == u && m.recipe == rid)

/-- Outcome of CustomUserViewSet.subscriptions: a paginated page of followed
authors, or the 400 answer given to a user with no subscriptions. -/
inductive SubscriptionsResult where
  | page (authors : List Nat)
  | badRequest
deriving DecidableEq, Repr

/-- CustomUserViewSet.subscriptions: a truthy queryset of the users followed
by `u` gives a page, otherwise the 400 branch. -/
def subscriptions (db : Store) (u : Nat) : SubscriptionsResult :=
  let qs := db.users.filter (fun a => db.follows.any (fun f => f.user == u && f.author == a))
  if qs.isEmpty then .badRequest else .page qs

/-- The example store with the same rows inserted in a different order:
the rows of recipe B first (sugar before flour), and the cart rows swapped. -/
def exampleDbPerm : Store where
  users := [1]
  tags := [1]
  ingredients := [⟨10, "flour", "g"⟩, ⟨11, "sugar", "g"⟩]
  recipes := [⟨1, 1, "A", 5, some "aaaaaa"⟩, ⟨2, 1, "B", 7, some "bbbbbb"⟩]
  ingredientInRecipe := [⟨2, 11, 50⟩, ⟨2, 10, 300⟩, ⟨1, 10, 200⟩]
  favorites := []
  shoppingCart := [⟨1, 2⟩, ⟨1, 1⟩]
  follows := []

theorem perm_any_eq {α : Type} {l₁ l₂ : List α} (h : l₁.Perm l₂) (p : α → Bool) :
    l₁.any p = l₂.any p := by
  cases hb : l₂.any p
  · simp only [List.any_eq_false] at hb ⊢
    intro x hx
    exact hb x (h.mem_iff.mp hx)
  · simp only [List.any_eq_true] at hb ⊢
    obtain ⟨x, hx, hpx⟩ := hb
    exact ⟨x, h.mem_iff.mpr hx, hpx⟩

theorem inCartOf_perm (db₁ db₂ : Store) (u rid : Nat)
    (hc : db₁.shoppingCart.Perm db₂.shoppingCart) :
    inCartOf db₁ u rid = inCartOf db₂ u rid :=
  perm_any_eq hc _

theorem cartRows_perm (db₁ db₂ : Store) (u : Nat)
    (hr : db₁.ingredientInRecipe.Perm db₂.ingredientInRecipe)
    (hc : db₁.shoppingCart.Perm db₂.shoppingCart) :
    (cartRows db₁ u).Perm (cartRows db₂ u) := by
  unfold cartRows
  have hq : db₂.ingredientInRecipe.filter (fun row => inCartOf db₂ u row.recipe)
      = db₂.ingredientInRecipe.filter (fun row => inCartOf db₁ u row.recipe) :=
    List.filter_congr (fun x _ => (inCartOf_perm db₁ db₂ u x.recipe hc).symm)
  rw [hq]
  exact hr.filter _

theorem cartEntries_perm (db₁ db₂ : Store) (u : Nat)
    (hi : db₁.ingredients = db₂.ingredients)
    (hr : db₁.ingredientInRecipe.Perm db₂.ingredientInRecipe)
    (hc : db₁.shoppingCart.Perm db₂.shoppingCart) :
    (cartEntries db₁ u).Perm (cartEntries db₂ u) := by
  unfold cartEntries
  rw [← hi]
  exact (cartRows_perm db₁ db₂ u hr hc).filterMap _

theorem totalFor_perm {l₁ l₂ : List ((String × String) × Nat)}
    (h : l₁.Perm l₂) (k : String × String) :
    totalFor l₁ k = totalFor l₂ k :=
  ((h.filter _).map _).sum_eq

/-- C1: the shopping-list aggregator sums, per ingredient identity
(name, measurement_unit), the amounts of all RecipeIngredient rows of recipes
in the cart of the user; on the example cart of recipes A and B it yields
flour 500 g and sugar 50 g, and the per-identity totals do not depend on the
insertion order of the recipe-ingredient rows or of the cart rows. -/
theorem C1_shopping_aggregation :
    shoppingIngredients exampleDb 1 = [("flour", "g", 500), ("sugar", "g", 50)] ∧
    ∀ db₁ db₂ : Store, ∀ u : Nat, ∀ k : String × String,
      db₁.ingredients = db₂.ingredients →
      db₁.ingredientInRecipe.Perm db₂.ingredientInRecipe →
      db₁.shoppingCart.Perm db₂.shoppingCart →
      totalFor (cartEntries db₁ u) k = totalFor (cartEntries db₂ u) k := by
  constructor
  · decide
  · intro db₁ db₂ u k hi hr hc
    exact totalFor_perm (cartEntries_perm db₁ db₂ u hi hr hc) k

/-- Witness for C1: the flour total over the example store equals the flour
total over the same rows inserted in another order (both are 500). -/
theorem C1_shopping_aggregation_witness :
    totalFor (cartEntries exampleDb 1) ("flour", "g")
      = totalFor (cartEntries exampleDbPerm 1) ("flour", "g") :=
  C1_shopping_aggregation.2 exampleDb exampleDbPerm 1 ("flour", "g")
    (by decide) (by decide) (by decide)

theorem memberExists_append_self (l : List MemberRow) (u rid : Nat) :
    memberExists (l ++ [⟨u, rid⟩]) u rid = true := by
  simp [memberExists]

theorem memberExists_erase (l : List MemberRow) (u rid : Nat) :
    memberExists (l.filter (fun m => !(m.user == u && m.recipe == rid))) u rid = false := by
  simp only [memberExists, List.any_eq_false]
  intro m hm
  have hkeep := (List.mem_filter.mp hm).2
  simp only [Bool.not_eq_eq_eq_not, Bool.not_true] at hkeep
  simp [hkeep]

/-- C2: on both Favorite and ShoppingCart, adding an existing membership
answers the conflict error (400) and leaves the store unchanged; adding an
absent one answers 201 and inserts it; removing a present membership answers
204 and deletes it; removing an absent one answers the 400 error with the
store unchanged; hence the second of two adds conflicts and the second of two
removes reports not-a-member. -/
theorem C2_membership_add_remove (db : Store) (u rid : Nat)
    (hrec : recipeExists db rid = true) :
    (memberExists db.favorites u rid = true →
      favoritePost db u rid = (.badRequest, db)) ∧
    (memberExists db.favorites u rid = false →
      (favoritePost db u rid).1 = .created rid ∧
      memberExists (favoritePost db u rid).2.favorites u rid = true) ∧
    (favoritePost (favoritePost db u rid).2 u rid).1 = .badRequest ∧
    (memberExists db.favorites u rid = true →
      (favoriteDelete db u rid).1 = .noContent ∧
      memberExists (favoriteDelete db u rid).2.favorites u rid = false) ∧
    (memberExists db.favorites u rid = false →
      favoriteDelete db u rid = (.badRequest, db)) ∧
    (favoriteDelete (favoriteDelete db u rid).2 u rid).1 = .badRequest ∧
    (memberExists db.shoppingCart u rid = true →
      shoppingCartPost db u rid = (.badRequest, db)) ∧
    (memberExists db.shoppingCart u rid = false →
      (shoppingCartPost db u rid).1 = .created rid ∧
      memberExists (shoppingCartPost db u rid).2.shoppingCart u rid = true) ∧
    (shoppingCartPost (shoppingCartPost db u rid).2 u rid).1 = .badRequest ∧
    (memberExists db.shoppingCart u rid = true →
      (shoppingCartDelete db u rid).1 = .noContent ∧
      memberExists (shoppingCartDelete db u rid).2.shoppingCart u rid = false) ∧
    (memberExists db.shoppingCart u rid = false →
      shoppingCartDelete db u rid = (.badRequest, db)) ∧
    (shoppingCartDelete (shoppingCartDelete db u rid).2 u rid).1 = .badRequest := by
  refine ⟨?_, ?_, ?_, ?_, ?_, ?_, ?_, ?_, ?_, ?_, ?_, ?_⟩
  · intro hm
    simp [favoritePost, hrec, hm]
  · intro hm
    constructor
    · simp [favoritePost, hrec, hm]
    · simp [favoritePost, hrec, hm, memberExists_append_self]
  · cases hm : memberExists db.favorites u rid
    · have h1 : favoritePost db u rid =
          (.created rid, { db with favorites := db.favorites ++ [⟨u, rid⟩] }) := by
        simp [favoritePost, hrec, hm]
      have hrec2 : recipeExists { db with favorites := db.favorites ++ [⟨u, rid⟩] } rid
          = true := hrec
      have hm2 : memberExists (db.favorites ++ [⟨u, rid⟩]) u rid = true :=
        memberExists_append_self db.favorites u rid
      rw [h1]
      simp only [favoritePost, hrec2, hm2, if_true]
    · have h1 : favoritePost db u rid = (.badRequest, db) := by
        simp [favoritePost, hrec, hm]
      rw [h1]
      simp only [favoritePost, hrec, hm, if_true]
  · intro hm
    have h1 : favoriteDelete db u rid =
        (.noContent,
          { db with favorites :=
              db.favorites.filter (fun m => !(m.user == u && m.recipe == rid)) }) := by
      simp [favoriteDelete, hrec, hm]
    rw [h1]
    exact ⟨rfl, memberExists_erase db.favorites u rid⟩
  · intro hm
    simp [favoriteDelete, hrec, hm]
  · cases hm : memberExists db.favorites u rid
    · have h1 : favoriteDelete db u rid = (.badRequest, db) := by
        simp [favoriteDelete, hrec, hm]
      rw [h1]
      simp [favoriteDelete, hrec, hm]
    · have h1 : favoriteDelete db u rid =
          (.noContent,
            { db with favorites :=
                db.favorites.filter (fun m => !(m.user == u && m.recipe == rid)) }) := by
        simp [favoriteDelete, hrec, hm]
      have hrec2 : recipeExists
          { db with favorites :=
              db.favorites.filter (fun m => !(m.user == u && m.recipe == rid)) } rid
          = true := hrec
      have hm2 : memberExists
          (db.favorites.filter (fun m => !(m.user == u && m.recipe == rid))) u rid
          = false := memberExists_erase db.favorites u rid
      rw [h1]
      simp only [favoriteDelete, hrec2, hm2, if_true, Bool.false_eq_true, if_false]
  · intro hm
    simp [shoppingCartPost, hrec, hm]
  · intro hm
    constructor
    · simp [shoppingCartPost, hrec, hm]
    · simp [shoppingCartPost, hrec, hm, memberExists_append_self]
  · cases hm : memberExists db.shoppingCart u rid
    · have h1 : shoppingCartPost db u rid =
          (.created rid, { db with shoppingCart := db.shoppingCart ++ [⟨u, rid⟩] }) := by
        simp [shoppingCartPost, hrec, hm]
      have hrec2 : recipeExists { db with shoppingCart := db.shoppingCart ++ [⟨u, rid⟩] } rid
          = true := hrec
      have hm2 : memberExists (db.shoppingCart ++ [⟨u, rid⟩]) u rid = true :=
        memberExists_append_self db.shoppingCart u rid
      rw [h1]
      simp only [shoppingCartPost, hrec2, hm2, if_true]
    · have h1 : shoppingCartPost db u rid = (.badRequest, db) := by
        simp [shoppingCartPost, hrec, hm]
      rw [h1]
      simp only [shoppingCartPost, hrec, hm, if_true]
  · intro hm
    have h1 : shoppingCartDelete db u rid =
        (.noContent,
          { db with shoppingCart :=
              db.shoppingCart.filter (fun m => !(m.user == u && m.recipe == rid)) }) := by
      simp [shoppingCartDelete, hrec, hm]
    rw [h1]
    exact ⟨rfl, memberExists_erase db.shoppingCart u rid⟩
  · intro hm
    simp [shoppingCartDelete, hrec, hm]
  · cases hm : memberExists db.shoppingCart u rid
    · have h1 : shoppingCartDelete db u rid = (.badRequest, db) := by
        simp [shoppingCartDelete, hrec, hm]
      rw [h1]
      simp [shoppingCartDelete, hrec, hm]
    · have h1 : shoppingCartDelete db u rid =
          (.noContent,
            { db with shoppingCart :=
                db.shoppingCart.filter (fun m => !(m.user == u && m.recipe == rid)) }) := by
        simp [shoppingCartDelete, hrec, hm]
      have hrec2 : recipeExists
          { db with shoppingCart :=
              db.shoppingCart.filter (fun m => !(m.user == u && m.recipe == rid)) } rid
          = true := hrec
      have hm2 : memberExists
          (db.shoppingCart.filter (fun m => !(m.user == u && m.recipe == rid))) u rid
          = false := memberExists_erase db.shoppingCart u rid
      rw [h1]
      simp only [shoppingCartDelete, hrec2, hm2, if_true, Bool.false_eq_true, if_false]

/-- Witness for C2: on the example store (recipe 1 exists, user 1 has no
favorite yet), add followed by add conflicts the second time. -/
theorem C2_membership_add_remove_witness :
    (favoritePost (favoritePost exampleDb 1 1).2 1 1).1 = .badRequest :=
  (C2_membership_add_remove exampleDb 1 1 (by decide)).2.2.1

/-- C3: a creation request with an empty ingredient list, a duplicate
ingredient id, cooking_time zero, or a nonexistent ingredient id fails with a
validation error and leaves the whole store — recipe rows and
IngredientInRecipe rows included — unchanged: every such check runs before
any write. -/
theorem C3_create_validation (db : Store) (stream : List String) (u : Nat)
    (p : RecipePayload)
    (h : p.ingredients.isEmpty = true ∨ hasDuplicateIngredientIds p.ingredients = true ∨
      p.cooking_time = 0 ∨ ∃ i ∈ p.ingredients, ingredientExists db i.id = false) :
    (recipeCreate db stream u p).1.isSome = true ∧ (recipeCreate db stream u p).2 = db := by
  unfold recipeCreate
  by_cases h1 : p.ingredients.isEmpty = true
  · rw [if_pos h1]
    exact ⟨rfl, rfl⟩
  rw [if_neg h1]
  by_cases h2 : p.ingredients.any (fun i => !(ingredientExists db i.id)) = true
  · rw [if_pos h2]
    exact ⟨rfl, rfl⟩
  rw [if_neg h2]
  by_cases h3 : p.tags.isEmpty = true
  · rw [if_pos h3]
    exact ⟨rfl, rfl⟩
  rw [if_neg h3]
  by_cases h4 : p.ingredients.any (fun i => i.amount < 1) = true
  · rw [if_pos h4]
    exact ⟨rfl, rfl⟩
  rw [if_neg h4]
  by_cases h5 : p.tags.any (fun t => !(tagExists db t)) = true
  · rw [if_pos h5]
    exact ⟨rfl, rfl⟩
  rw [if_neg h5]
  by_cases h6 : p.cooking_time < 1
  · rw [if_pos h6]
    exact ⟨rfl, rfl⟩
  rw [if_neg h6]
  by_cases h7 : hasDuplicateIngredientIds p.ingredients = true
  · rw [if_pos h7]
    exact ⟨rfl, rfl⟩
  rw [if_neg h7]
  by_cases h8 : hasDuplicateTags p.tags = true
  · rw [if_pos h8]
    exact ⟨rfl, rfl⟩
  exfalso
  rcases h with he | hd | hct | ⟨i, hi, hne⟩
  · exact h1 he
  · exact h7 hd
  · exact h6 (by omega)
  · apply h2
    simp only [List.any_eq_true]
    exact ⟨i, hi, by simp [hne]⟩

/-- Witness for C3: creating with a duplicated ingredient id on the example
store fails and changes nothing. -/
theorem C3_create_validation_witness :
    (recipeCreate exampleDb ["cccccc"] 1
        ⟨"R", "t", 3, [⟨10, 1⟩, ⟨10, 2⟩], [1]⟩).1.isSome = true ∧
    (recipeCreate exampleDb ["cccccc"] 1
        ⟨"R", "t", 3, [⟨10, 1⟩, ⟨10, 2⟩], [1]⟩).2 = exampleDb :=
  C3_create_validation exampleDb ["cccccc"] 1 ⟨"R", "t", 3, [⟨10, 1⟩, ⟨10, 2⟩], [1]⟩
    (Or.inr (Or.inl (by decide)))

/-- A character of the default get_random_string alphabet: ASCII letters and digits. -/
def isAlnumChar (c : Char) : Bool := c.isAlpha || c.isDigit

/-- All characters of the string are alphanumeric. -/
def isAlnumString (s : String) : Bool := s.data.all isAlnumChar

/-- Sequential recipe creation viewed through the allocator: each creation
draws from its own candidate stream and the produced code joins the existing
codes before the next creation. -/
def allocateAll (existing : List String) : List (List String) → Option (List String)
  | [] => some []
  | stream :: rest =>
    match generate_short_url existing stream with
    | none => none
    | some c => (allocateAll (c :: existing) rest).map (fun cs => c :: cs)

theorem generate_short_url_fresh {existing stream : List String} {c : String}
    (h : generate_short_url existing stream = some c) : c ∉ existing := by
  have hp := List.find?_some h
  intro hc
  simp [hc] at hp

theorem generate_short_url_mem {existing stream : List String} {c : String}
    (h : generate_short_url existing stream = some c) : c ∈ stream :=
  List.mem_of_find?_eq_some h

theorem allocateAll_fresh_nodup :
    ∀ (streams : List (List String)) (existing : List String) (cs : List String),
      allocateAll existing streams = some cs →
      cs.Nodup ∧ ∀ c ∈ cs, c ∉ existing := by
  intro streams
  induction streams with
  | nil =>
    intro existing cs h
    simp only [allocateAll, Option.some.injEq] at h
    subst h
    exact ⟨List.nodup_nil, by simp⟩
  | cons stream rest ih =>
    intro existing cs h
    simp only [allocateAll] at h
    cases hg : generate_short_url existing stream with
    | none =>
      rw [hg] at h
      simp at h
    | some c =>
      simp only [hg] at h
      cases ha : allocateAll (c :: existing) rest with
      | none =>
        rw [ha] at h
        simp at h
      | some cs' =>
        rw [ha] at h
        simp only [Option.map_some', Option.some.injEq] at h
        subst h
        obtain ⟨hnd, hni⟩ := ih (c :: existing) cs' ha
        refine ⟨List.nodup_cons.mpr ⟨?_, hnd⟩, ?_⟩
        · intro hcmem
          exact (hni c hcmem) (List.mem_cons_self c existing)
        · intro x hx
          rcases List.mem_cons.mp hx with hx | hx'
          · subst hx
            exact generate_short_url_fresh hg
          · intro hxe
            exact (hni x hx') (List.mem_cons_of_mem c hxe)

/-- C4: the allocated code never collides with an existing code; drawn
from length-6 alphanumeric candidates it is a 6-character alphanumeric code;
save leaves an already-assigned code untouched; a code assigned at creation
survives every later save unchanged; and sequential creations produce
pairwise-distinct codes, all distinct from the pre-existing ones. -/
theorem C4_short_code_allocation :
    (∀ existing stream c, generate_short_url existing stream = some c →
      c ∉ existing) ∧
    (∀ existing stream c, (∀ s ∈ stream, s.length = 6 ∧ isAlnumString s = true) →
      generate_short_url existing stream = some c →
      c.length = 6 ∧ isAlnumString c = true) ∧
    (∀ existing stream r, shortUrlFalsy r.short_url = false →
      recipeSaveCode existing stream r = some r) ∧
    (∀ existing stream r r₁, r.short_url = none →
      (∀ s ∈ stream, s.length = 6) →
      recipeSaveCode existing stream r = some r₁ →
      ∀ existing₂ stream₂, recipeSaveCode existing₂ stream₂ r₁ = some r₁) ∧
    (∀ existing streams cs, allocateAll existing streams = some cs →
      cs.Nodup ∧ ∀ c ∈ cs, c ∉ existing) := by
  refine ⟨?_, ?_, ?_, ?_, ?_⟩
  · intro existing stream c h
    exact generate_short_url_fresh h
  · intro existing stream c hwf h
    exact hwf c (generate_short_url_mem h)
  · intro existing stream r hne
    unfold recipeSaveCode
    rw [hne]
    simp
  · intro existing stream r r₁ hnone hwf h existing₂ stream₂
    unfold recipeSaveCode at h
    rw [hnone] at h
    simp only [shortUrlFalsy, if_true] at h
    cases hg : generate_short_url existing stream with
    | none =>
      rw [hg] at h
      simp at h
    | some c =>
      rw [hg] at h
      simp only [Option.map_some', Option.some.injEq] at h
      subst h
      have hlen : c.length = 6 := hwf c (generate_short_url_mem hg)
      have hfalsy : shortUrlFalsy (some c) = false := by
        simp only [shortUrlFalsy]
        rw [Bool.eq_false_iff]
        intro he
        rw [String.isEmpty_iff] at he
        subst he
        simp at hlen
      unfold recipeSaveCode
      simp only [hfalsy]
      simp
  · exact fun existing streams cs h => allocateAll_fresh_nodup streams existing cs h

/-- Witness for C4: two sequential creations over the existing code "aaaaaa",
with candidate streams whose first draws collide, yield the two distinct
fresh codes. -/
theorem C4_short_code_allocation_witness :
    (["b1c2d3", "e4f5g6"] : List String).Nodup ∧
    ∀ c ∈ (["b1c2d3", "e4f5g6"] : List String), c ∉ (["aaaaaa"] : List String) :=
  C4_short_code_allocation.2.2.2.2 ["aaaaaa"]
    [["aaaaaa", "b1c2d3"], ["b1c2d3", "e4f5g6"]] ["b1c2d3", "e4f5g6"] (by decide)

/-- Spec reference format, written from the specification for comparison
with ingredients_to_txt:
one line per triple, built as name, two spaces, hyphen and space, the total
amount, the measurement unit in parentheses, then a newline. -/
def specLine (e : String × String × Nat) : String :=
  e.1 ++ "  - " ++ toString e.2.2 ++ "(" ++ e.2.1 ++ ")" ++ "\n"

/-- Concatenation of the per-triple lines, in order. -/
def specReport : List (String × String × Nat) → String
  | [] => ""
  | e :: es => specLine e ++ specReport es

theorem ingredients_to_txt_foldl (l : List (String × String × Nat)) :
    ∀ acc : String,
      l.foldl
        (fun acc e => acc ++ (e.1 ++ "  - " ++ toString e.2.2 ++ "(" ++ e.2.1 ++ ")" ++ "\n"))
        acc
      = acc ++ specReport l := by
  induction l with
  | nil =>
    intro acc
    simp only [List.foldl_nil, specReport]
    exact (String.append_empty acc).symm
  | cons e es ih =>
    intro acc
    simp only [List.foldl_cons, specReport]
    rw [ih, String.append_assoc]
    rfl

theorem ingredients_to_txt_eq_specReport (l : List (String × String × Nat)) :
    ingredients_to_txt l = specReport l := by
  unfold ingredients_to_txt
  rw [ingredients_to_txt_foldl]
  exact String.empty_append _

theorem dedupFirst_nodup : ∀ l : List (String × String), (dedupFirst l).Nodup := by
  intro l
  induction l with
  | nil => simp [dedupFirst]
  | cons k ks ih =>
    simp only [dedupFirst]
    refine List.nodup_cons.mpr ⟨?_, ih.filter _⟩
    intro hk
    have hne := (List.mem_filter.mp hk).2
    simp at hne

theorem shoppingIngredients_keys_nodup (db : Store) (u : Nat) :
    ((shoppingIngredients db u).map (fun t => (t.1, t.2.1))).Nodup := by
  unfold shoppingIngredients
  rw [List.map_map]
  have hid : ((fun t : String × String × Nat => (t.1, t.2.1)) ∘
      (fun k : String × String => (k.1, k.2, totalFor (cartEntries db u) k))) = id := by
    funext k
    simp
  rw [hid, List.map_id]
  exact dedupFirst_nodup _

theorem empty_cart_empty_rows (db : Store) (u : Nat)
    (h : ∀ c ∈ db.shoppingCart, c.user ≠ u) :
    cartRows db u = [] := by
  unfold cartRows
  apply List.filter_eq_nil_iff.mpr
  intro row _
  simp only [inCartOf, Bool.not_eq_true, List.any_eq_false]
  intro c hc
  simp [h c hc]

/-- C5: the export is byte-for-byte the concatenation, one line per triple,
of name, two spaces, hyphen and space, total amount, unit in parentheses and
a newline; the triples carry pairwise-distinct (name, unit) identities, so
there is exactly one line per distinct ingredient; and a user with an empty
shopping cart gets the empty report rather than an error. -/
theorem C5_export_format (db : Store) (u : Nat) :
    download_shopping_cart db u = specReport (shoppingIngredients db u) ∧
    ((shoppingIngredients db u).map (fun t => (t.1, t.2.1))).Nodup ∧
    ((∀ c ∈ db.shoppingCart, c.user ≠ u) → download_shopping_cart db u = "") := by
  refine ⟨ingredients_to_txt_eq_specReport _, shoppingIngredients_keys_nodup db u, ?_⟩
  intro h
  unfold download_shopping_cart shoppingIngredients cartEntries
  rw [empty_cart_empty_rows db u h]
  rfl

/-- Witness for C5: user 2 has nothing in the cart of the example store, and
the export is the empty string. -/
theorem C5_export_format_witness : download_shopping_cart exampleDb 2 = "" :=
  (C5_export_format exampleDb 2).2.2 (by decide)

/-- At most one membership row per (user, recipe) pair: the uniqueness
constraints unique_favorite / unique_shoppingcart. -/
def atMostOne (rows : List MemberRow) : Prop :=
  ∀ u rid : Nat, (rows.filter (fun m => m.user == u && m.recipe == rid)).length ≤ 1

theorem memberPred_eq (u rid : Nat) (m : MemberRow) :
    (m.user == u && m.recipe == rid) = (m == (⟨u, rid⟩ : MemberRow)) := by
  cases m with
  | mk mu mr =>
    cases h1 : (mu == u) <;> cases h2 : (mr == rid) <;>
      simp_all [beq_iff_eq, MemberRow.mk.injEq]

theorem atMostOne_of_nodup (rows : List MemberRow) (h : rows.Nodup) : atMostOne rows := by
  intro u rid
  have hc : rows.filter (fun m => m.user == u && m.recipe == rid)
      = rows.filter (fun m => m == (⟨u, rid⟩ : MemberRow)) :=
    List.filter_congr (fun m _ => memberPred_eq u rid m)
  rw [hc]
  calc (rows.filter (fun m => m == (⟨u, rid⟩ : MemberRow))).length
      = rows.countP (fun m => m == (⟨u, rid⟩ : MemberRow)) :=
        (List.countP_eq_length_filter _ _).symm
    _ ≤ 1 := by
        have hcount := List.nodup_iff_count_le_one.mp h (⟨u, rid⟩ : MemberRow)
        simpa [List.count] using hcount

theorem filter_nil_of_not_memberExists (rows : List MemberRow) (u rid : Nat)
    (hm : memberExists rows u rid = false) :
    rows.filter (fun m => m.user == u && m.recipe == rid) = [] := by
  simp only [memberExists, List.any_eq_false] at hm
  apply List.filter_eq_nil_iff.mpr
  intro m hmem
  simpa using hm m hmem

theorem atMostOne_append (rows : List MemberRow) (u rid : Nat)
    (hm : memberExists rows u rid = false) (h : atMostOne rows) :
    atMostOne (rows ++ [⟨u, rid⟩]) := by
  intro u' rid'
  rw [List.filter_append, List.length_append]
  by_cases hp : ((⟨u, rid⟩ : MemberRow).user == u' && (⟨u, rid⟩ : MemberRow).recipe == rid')
      = true
  · have hu : u = u' ∧ rid = rid' := by simpa using hp
    obtain ⟨hu1, hu2⟩ := hu
    subst hu1
    subst hu2
    rw [filter_nil_of_not_memberExists rows u rid hm]
    simp [hp]
  · have hnil : List.filter (fun m => m.user == u' && m.recipe == rid')
        [(⟨u, rid⟩ : MemberRow)] = [] := by
      simp only [List.filter]
      rw [Bool.eq_false_iff.mpr hp]
    rw [hnil]
    simpa using h u' rid'

theorem atMostOne_filter (rows : List MemberRow) (q : MemberRow → Bool)
    (h : atMostOne rows) : atMostOne (rows.filter q) := by
  intro u rid
  have hsub : List.Sublist
      ((rows.filter q).filter (fun m => m.user == u && m.recipe == rid))
      (rows.filter (fun m => m.user == u && m.recipe == rid)) :=
    (List.filter_sublist rows).filter _
  exact le_trans hsub.length_le (h u rid)

set_option maxHeartbeats 1000000 in
theorem recipeCreate_membership (db : Store) (stream : List String) (u : Nat)
    (p : RecipePayload) :
    (recipeCreate db stream u p).2.favorites = db.favorites ∧
    (recipeCreate db stream u p).2.shoppingCart = db.shoppingCart := by
  constructor
  · unfold recipeCreate
    repeat' split
    all_goals try rfl
    all_goals dsimp only
    all_goals repeat' split
    all_goals rfl
  · unfold recipeCreate
    repeat' split
    all_goals try rfl
    all_goals dsimp only
    all_goals repeat' split
    all_goals rfl

set_option maxHeartbeats 1000000 in
theorem recipeUpdate_membership (db : Store) (rid : Nat) (p : RecipePayload) :
    (recipeUpdate db rid p).2.favorites = db.favorites ∧
    (recipeUpdate db rid p).2.shoppingCart = db.shoppingCart := by
  constructor
  · unfold recipeUpdate
    repeat' split
    all_goals try rfl
    all_goals dsimp only
    all_goals repeat' split
    all_goals rfl
  · unfold recipeUpdate
    repeat' split
    all_goals try rfl
    all_goals dsimp only
    all_goals repeat' split
    all_goals rfl

/-- C6: assuming the at-most-one-row-per-pair invariant, every modelled
operation preserves it on both the Favorite and ShoppingCart tables, and an
add on an already-present member leaves the rows exactly as they were, never
creating a duplicate. -/
theorem C6_membership_uniqueness (db : Store) (u rid : Nat) (stream : List String)
    (p : RecipePayload) (rid' : Nat)
    (hf : atMostOne db.favorites) (hs : atMostOne db.shoppingCart) :
    (memberExists db.favorites u rid = true →
      (favoritePost db u rid).2.favorites = db.favorites) ∧
    (memberExists db.shoppingCart u rid = true →
      (shoppingCartPost db u rid).2.shoppingCart = db.shoppingCart) ∧
    (atMostOne (favoritePost db u rid).2.favorites ∧
      atMostOne (favoritePost db u rid).2.shoppingCart) ∧
    (atMostOne (favoriteDelete db u rid).2.favorites ∧
      atMostOne (favoriteDelete db u rid).2.shoppingCart) ∧
    (atMostOne (shoppingCartPost db u rid).2.favorites ∧
      atMostOne (shoppingCartPost db u rid).2.shoppingCart) ∧
    (atMostOne (shoppingCartDelete db u rid).2.favorites ∧
      atMostOne (shoppingCartDelete db u rid).2.shoppingCart) ∧
    ((recipeCreate db stream u p).2.favorites = db.favorites ∧
      (recipeCreate db stream u p).2.shoppingCart = db.shoppingCart) ∧
    ((recipeUpdate db rid' p).2.favorites = db.favorites ∧
      (recipeUpdate db rid' p).2.shoppingCart = db.shoppingCart) := by
  refine ⟨?_, ?_, ⟨?_, ?_⟩, ⟨?_, ?_⟩, ⟨?_, ?_⟩, ⟨?_, ?_⟩, ⟨?_, ?_⟩, ⟨?_, ?_⟩⟩
  · intro hm
    by_cases hr : recipeExists db rid = true
    · simp [favoritePost, hr, hm]
    · simp [favoritePost, hr]
  · intro hm
    by_cases hr : recipeExists db rid = true
    · simp [shoppingCartPost, hr, hm]
    · simp [shoppingCartPost, hr]
  · by_cases hr : recipeExists db rid = true
    · by_cases hm : memberExists db.favorites u rid = true
      · simpa [favoritePost, hr, hm] using hf
      · have hm' := Bool.eq_false_iff.mpr hm
        simpa [favoritePost, hr, hm'] using
          atMostOne_append db.favorites u rid hm' hf
    · simpa [favoritePost, hr] using hf
  · by_cases hr : recipeExists db rid = true
    · by_cases hm : memberExists db.favorites u rid = true
      · simpa [favoritePost, hr, hm] using hs
      · simpa [favoritePost, hr, Bool.eq_false_iff.mpr hm] using hs
    · simpa [favoritePost, hr] using hs
  · by_cases hr : recipeExists db rid = true
    · by_cases hm : memberExists db.favorites u rid = true
      · simpa [favoriteDelete, hr, hm] using atMostOne_filter db.favorites _ hf
      · simpa [favoriteDelete, hr, Bool.eq_false_iff.mpr hm] using hf
    · simpa [favoriteDelete, hr] using hf
  · by_cases hr : recipeExists db rid = true
    · by_cases hm : memberExists db.favorites u rid = true
      · simpa [favoriteDelete, hr, hm] using hs
      · simpa [favoriteDelete, hr, Bool.eq_false_iff.mpr hm] using hs
    · simpa [favoriteDelete, hr] using hs
  · by_cases hr : recipeExists db rid = true
    · by_cases hm : memberExists db.shoppingCart u rid = true
      · simpa [shoppingCartPost, hr, hm] using hf
      · simpa [shoppingCartPost, hr, Bool.eq_false_iff.mpr hm] using hf
    · simpa [shoppingCartPost, hr] using hf
  · by_cases hr : recipeExists db rid = true
    · by_cases hm : memberExists db.shoppingCart u rid = true
      · simpa [shoppingCartPost, hr, hm] using hs
      · have hm' := Bool.eq_false_iff.mpr hm
        simpa [shoppingCartPost, hr, hm'] using
          atMostOne_append db.shoppingCart u rid hm' hs
    · simpa [shoppingCartPost, hr] using hs
  · by_cases hr : recipeExists db rid = true
    · by_cases hm : memberExists db.shoppingCart u rid = true
      · simpa [shoppingCartDelete, hr, hm] using hf
      · simpa [shoppingCartDelete, hr, Bool.eq_false_iff.mpr hm] using hf
    · simpa [shoppingCartDelete, hr] using hf
  · by_cases hr : recipeExists db rid = true
    · by_cases hm : memberExists db.shoppingCart u rid = true
      · simpa [shoppingCartDelete, hr, hm] using atMostOne_filter db.shoppingCart _ hs
      · simpa [shoppingCartDelete, hr, Bool.eq_false_iff.mpr hm] using hs
    · simpa [shoppingCartDelete, hr] using hs
  · exact (recipeCreate_membership db stream u p).1
  · exact (recipeCreate_membership db stream u p).2
  · exact (recipeUpdate_membership db rid' p).1
  · exact (recipeUpdate_membership db rid' p).2

/-- Witness for C6: adding recipe 1 to the favorites of user 1 on the
example store keeps the favorites table free of duplicate pairs. -/
theorem C6_membership_uniqueness_witness :
    atMostOne (favoritePost exampleDb 1 1).2.favorites :=
  (C6_membership_uniqueness exampleDb 1 1 ["cccccc"] ⟨"R", "t", 3, [⟨10, 1⟩], [1]⟩ 1
      (atMostOne_of_nodup exampleDb.favorites (by decide))
      (atMostOne_of_nodup exampleDb.shoppingCart (by decide))).2.2.1.1

/-- C7: a successful recipe update has full replacement semantics for the
ingredient associations: afterwards the IngredientInRecipe rows of the
recipe are exactly the (ingredient id, amount) pairs of the payload, and the
rows of every
other recipe are untouched. -/
theorem C7_update_replacement (db : Store) (rid : Nat) (p : RecipePayload)
    (h : (recipeUpdate db rid p).1 = none) :
    ((recipeUpdate db rid p).2.ingredientInRecipe.filter (fun row => row.recipe == rid))
      = p.ingredients.map (fun i => ⟨rid, i.id, i.amount⟩) ∧
    ((recipeUpdate db rid p).2.ingredientInRecipe.filter (fun row => !(row.recipe == rid)))
      = db.ingredientInRecipe.filter (fun row => !(row.recipe == rid)) := by
  unfold recipeUpdate at h
  by_cases h1 : p.ingredients.isEmpty = true
  · rw [if_pos h1] at h
    simp at h
  rw [if_neg h1] at h
  by_cases h2 : (p.ingredients.any fun i => !(ingredientExists db i.id)) = true
  · rw [if_pos h2] at h
    simp at h
  rw [if_neg h2] at h
  by_cases h3 : p.tags.isEmpty = true
  · rw [if_pos h3] at h
    simp at h
  rw [if_neg h3] at h
  by_cases h4 : (p.ingredients.any fun i => i.amount < 1) = true
  · rw [if_pos h4] at h
    simp at h
  rw [if_neg h4] at h
  by_cases h5 : (p.tags.any fun t => !(tagExists db t)) = true
  · rw [if_pos h5] at h
    simp at h
  rw [if_neg h5] at h
  by_cases h6 : p.cooking_time < 1
  · rw [if_pos h6] at h
    simp at h
  rw [if_neg h6] at h
  by_cases h7 : hasDuplicateIngredientIds p.ingredients = true
  · rw [if_pos h7] at h
    simp at h
  rw [if_neg h7] at h
  by_cases h8 : hasDuplicateTags p.tags = true
  · rw [if_pos h8] at h
    simp at h
  have hstore : (recipeUpdate db rid p).2.ingredientInRecipe
      = (db.ingredientInRecipe.filter (fun row => !(row.recipe == rid)))
          ++ p.ingredients.map (fun i => ⟨rid, i.id, i.amount⟩) := by
    unfold recipeUpdate
    rw [if_neg h1, if_neg h2, if_neg h3, if_neg h4, if_neg h5, if_neg h6, if_neg h7,
      if_neg h8]
    dsimp only
    split
    · next hx => exact absurd hx h2
    · rfl
  rw [hstore]
  constructor
  · rw [List.filter_append]
    have hnil : (db.ingredientInRecipe.filter (fun row => !(row.recipe == rid))).filter
        (fun row => row.recipe == rid) = [] := by
      rw [List.filter_filter]
      apply List.filter_eq_nil_iff.mpr
      intro a _
      simp
    have hall : (p.ingredients.map
          (fun i => (⟨rid, i.id, i.amount⟩ : IngredientInRecipe))).filter
        (fun row => row.recipe == rid)
        = p.ingredients.map (fun i => (⟨rid, i.id, i.amount⟩ : IngredientInRecipe)) := by
      apply List.filter_eq_self.mpr
      intro a ha
      obtain ⟨i, _, rfl⟩ := List.mem_map.mp ha
      simp
    rw [hnil, hall, List.nil_append]
  · rw [List.filter_append]
    have hidem : (db.ingredientInRecipe.filter (fun row => !(row.recipe == rid))).filter
        (fun row => !(row.recipe == rid))
        = db.ingredientInRecipe.filter (fun row => !(row.recipe == rid)) := by
      apply List.filter_eq_self.mpr
      intro a ha
      exact (List.mem_filter.mp ha).2
    have hnil2 : (p.ingredients.map
          (fun i => (⟨rid, i.id, i.amount⟩ : IngredientInRecipe))).filter
        (fun row => !(row.recipe == rid)) = [] := by
      apply List.filter_eq_nil_iff.mpr
      intro a ha
      obtain ⟨i, _, rfl⟩ := List.mem_map.mp ha
      simp
    rw [hidem, hnil2, List.append_nil]

/-- Witness for C7: updating recipe 1 of the example store to hold a single
(sugar, 7) row replaces its former flour row and keeps the rows of
recipe 2. -/
theorem C7_update_replacement_witness :
    ((recipeUpdate exampleDb 1 ⟨"R", "t", 3, [⟨11, 7⟩], [1]⟩).2.ingredientInRecipe.filter
        (fun row => row.recipe == 1))
      = [⟨1, 11, 7⟩] ∧
    ((recipeUpdate exampleDb 1 ⟨"R", "t", 3, [⟨11, 7⟩], [1]⟩).2.ingredientInRecipe.filter
        (fun row => !(row.recipe == 1)))
      = exampleDb.ingredientInRecipe.filter (fun row => !(row.recipe == 1)) :=
  C7_update_replacement exampleDb 1 ⟨"R", "t", 3, [⟨11, 7⟩], [1]⟩ (by decide)

theorem mem_dedupFirst (k : String × String) :
    ∀ l : List (String × String), k ∈ dedupFirst l ↔ k ∈ l := by
  intro l
  induction l with
  | nil => simp [dedupFirst]
  | cons a as ih =>
    simp only [dedupFirst, List.mem_cons]
    constructor
    · rintro (rfl | hk)
      · exact Or.inl rfl
      · exact Or.inr (ih.mp (List.mem_filter.mp hk).1)
    · rintro (rfl | hk)
      · exact Or.inl rfl
      · by_cases hka : k = a
        · exact Or.inl hka
        · refine Or.inr (List.mem_filter.mpr ⟨ih.mpr hk, ?_⟩)
          simp [hka]

theorem dedupFirst_perm {l₁ l₂ : List (String × String)} (h : l₁.Perm l₂) :
    (dedupFirst l₁).Perm (dedupFirst l₂) := by
  rw [List.perm_ext_iff_of_nodup (dedupFirst_nodup l₁) (dedupFirst_nodup l₂)]
  intro k
  rw [mem_dedupFirst, mem_dedupFirst]
  exact h.mem_iff

/-- C8 counterexample: two stores holding the same recipe-ingredient rows and
cart rows, inserted in different orders, produce different output sequences —
the aggregate starts with flour on one and with sugar on the other. -/
theorem C8_counterexample :
    exampleDb.ingredients = exampleDbPerm.ingredients ∧
    exampleDb.ingredientInRecipe.Perm exampleDbPerm.ingredientInRecipe ∧
    exampleDb.shoppingCart.Perm exampleDbPerm.shoppingCart ∧
    shoppingIngredients exampleDb 1 ≠ shoppingIngredients exampleDbPerm 1 :=
  ⟨rfl, by decide, by decide, by decide⟩

/-- C8 amended: the aggregate is deterministic as a multiset — over contents
built by inserting the same rows in different orders the two output sequences
are permutations of each other with equal totals per ingredient identity —
but the sequence order follows first occurrence in the stored rows, so it is
identical across runs only for a fixed stored row sequence, not across
different insertion orders. -/
theorem C8_amended_determinism (db₁ db₂ : Store) (u : Nat)
    (hi : db₁.ingredients = db₂.ingredients)
    (hr : db₁.ingredientInRecipe.Perm db₂.ingredientInRecipe)
    (hc : db₁.shoppingCart.Perm db₂.shoppingCart) :
    (shoppingIngredients db₁ u).Perm (shoppingIngredients db₂ u) := by
  unfold shoppingIngredients
  have he := cartEntries_perm db₁ db₂ u hi hr hc
  have hmapeq : (dedupFirst ((cartEntries db₂ u).map (fun e => e.1))).map
        (fun k => (k.1, k.2, totalFor (cartEntries db₁ u) k))
      = (dedupFirst ((cartEntries db₂ u).map (fun e => e.1))).map
        (fun k => (k.1, k.2, totalFor (cartEntries db₂ u) k)) := by
    apply List.map_eq_map_iff.mpr
    intro k _
    rw [totalFor_perm he k]
  rw [← hmapeq]
  exact (dedupFirst_perm (he.map _)).map _

/-- Witness for C8 amended: the two concrete outputs of the example stores
are permutations of each other. -/
theorem C8_amended_determinism_witness :
    (shoppingIngredients exampleDb 1).Perm (shoppingIngredients exampleDbPerm 1) :=
  C8_amended_determinism exampleDb exampleDbPerm 1 rfl (by decide) (by decide)

/-- C9: a recipe rendered to an anonymous requester always carries
is_favorited = false and is_in_shopping_cart = false, whatever membership
rows the store holds. -/
theorem C9_anonymous_flags (db : Store) (rid : Nat) :
    get_is_favorited db none rid = false ∧ get_is_in_shopping_cart db none rid = false :=
  ⟨rfl, rfl⟩

/-- C10: a user following nobody gets the 400 answer from the subscriptions
listing, not an empty page; with at least one follow (whose author exists, as
the foreign key guarantees) the answer is a non-empty page. -/
theorem C10_subscriptions (db : Store) (u : Nat) :
    ((∀ f ∈ db.follows, f.user ≠ u) → subscriptions db u = .badRequest) ∧
    ((∀ f ∈ db.follows, f.author ∈ db.users) →
      (∃ f ∈ db.follows, f.user = u) →
      ∃ l, subscriptions db u = .page l ∧ l ≠ []) := by
  constructor
  · intro h
    unfold subscriptions
    have hnil : db.users.filter
        (fun a => db.follows.any (fun f => f.user == u && f.author == a)) = [] := by
      apply List.filter_eq_nil_iff.mpr
      intro a _
      simp only [Bool.not_eq_true, List.any_eq_false]
      intro f hf
      simp [h f hf]
    simp [hnil]
  · intro hint hex
    obtain ⟨f, hf, hfu⟩ := hex
    have hmem : f.author ∈ db.users.filter
        (fun a => db.follows.any (fun g => g.user == u && g.author == a)) := by
      refine List.mem_filter.mpr ⟨hint f hf, ?_⟩
      simp only [List.any_eq_true]
      exact ⟨f, hf, by simp [hfu]⟩
    have hne : ¬ (db.users.filter
        (fun a => db.follows.any (fun g => g.user == u && g.author == a))).isEmpty = true := by
      intro hempty
      rw [List.isEmpty_iff.mp hempty] at hmem
      simp at hmem
    unfold subscriptions
    rw [if_neg hne]
    refine ⟨_, rfl, ?_⟩
    intro hl
    rw [hl] at hmem
    simp at hmem

/-- Witness for C10: in the example store user 1 follows nobody, so the
subscriptions page answers 400. -/
theorem C10_subscriptions_witness : subscriptions exampleDb 1 = .badRequest :=
  (C10_subscriptions exampleDb 1).1 (by decide)
